import Mathlib

/-!
# Verification of the HighScore leaderboard API core

Shallow embedding of the core logic of the `api-highscore-leaderboard`
repository (files `app/models.py`, `app/security.py`, `app/schemas.py`,
`app/routes.py`) and proofs of the specification claims about it.

Modelling conventions:
* The database tables `games` and `scores` are modelled as Lean lists of
  structures (`List Game`, `List ScoreEvent`); SQL queries in `routes.py`
  become list filters/maps over them.
* Python `datetime` values are modelled as integer timestamps
  (microseconds); `timedelta(days = n)` is `n * microsPerDay`.
* Python `int` scores are `Int`.
* The PBKDF2-HMAC-SHA256 derivation of `security.hash_api_key` is a
  cryptographic primitive; it is modelled as an explicit function
  parameter `hashFn : String → String` (the only property the code relies
  on is that it is a deterministic function, which every Lean function
  is).  `verify_api_key` and `get_game_by_api_key` are embedded on top of
  it exactly as written.
* Floating point `round(x, 2)` in `get_player_stats` is modelled over `ℚ`
  by `roundTo2`.
* `json.dumps(metadata)` in `schemas.ScoreCreate.validate_metadata` is
  modelled by carrying the serialized form as a field of the metadata
  value, since only its length and the key set are inspected.
-/

/-- `games` table row (`app/models.py`, class `Game`).  The `name`,
`description` and `created_at` columns are carried for the response
shapes; `api_key_hash` has a UNIQUE constraint in the schema, which
appears as a `Nodup` hypothesis where a proof needs it. -/
structure Game where
  id : Nat
  name : String
  description : Option String
  api_key_hash : String
  created_at : Int
deriving Repr, DecidableEq

/-- `scores` table row (`app/models.py`, class `Score`).  Metadata is
irrelevant to every aggregate query, so events carry only the columns the
embedded queries read. -/
structure ScoreEvent where
  game_id : Nat
  player_name : String
  score : Int
  created_at : Int
deriving Repr, DecidableEq

/-! ## `app/security.py` -/

/-- `security.verify_api_key`: compare the derived hash of the presented
key with the stored hash.  `hashFn` stands for `hash_api_key`
(PBKDF2-HMAC-SHA256, fixed salt, 100000 iterations), see module header. -/
def verify_api_key (hashFn : String → String) (plain_key : String)
    (hashed_key : String) : Bool :=
  hashFn plain_key == hashed_key

/-- `security.get_game_by_api_key`: load all games and return the first
whose stored hash verifies against the presented key, else `none`
(the routes translate `none` into HTTP 401). -/
def get_game_by_api_key (hashFn : String → String) (games : List Game)
    (api_key : String) : Option Game :=
  games.find? (fun g => verify_api_key hashFn api_key g.api_key_hash)

/-! ## `app/schemas.py` — validation layer -/

/-- Python regex `\w` (word character): letters, digits, underscore. -/
def isWordChar (c : Char) : Bool :=
  c.isAlphanum || c == '_'

/-- Character class of `^[\w\s\-._@]+$` in
`ScoreCreate.validate_player_name`. -/
def validPlayerChar (c : Char) : Bool :=
  isWordChar c || c.isWhitespace || c == '-' || c == '.' || c == '_' || c == '@'

/-- Character class of `^[\w\-_]+$` in `ScoreCreate.validate_metadata`. -/
def validMetaKeyChar (c : Char) : Bool :=
  isWordChar c || c == '-' || c == '_'

/-- Python `str.strip()`: remove leading and trailing whitespace. -/
def pyStrip (s : String) : String :=
  ⟨((s.data.dropWhile Char.isWhitespace).reverse.dropWhile
      Char.isWhitespace).reverse⟩

/-- Metadata payload of a score submission.  `serialized` is the
`json.dumps` rendering (only its length is inspected by the validator),
`keys` the key set of the mapping. -/
structure Metadata where
  keys : List String
  serialized : String
deriving Repr, DecidableEq

/-- Raw body of `POST /scores` before validation
(`schemas.ScoreCreate` fields). -/
structure ScoreCreateInput where
  player_name : String
  score : Int
  game_metadata : Option Metadata
deriving Repr, DecidableEq

/-- A validated score submission (output of the `ScoreCreate` model). -/
structure ScoreCreateData where
  player_name : String
  score : Int
  game_metadata : Option Metadata
deriving Repr, DecidableEq

/-- `ScoreCreate.validate_player_name`: strip, reject empty, reject
characters outside `^[\w\s\-._@]+$`. -/
def validate_player_name (v : String) : Except String String :=
  let v := pyStrip v
  if v.data.isEmpty then
    .error "Player name cannot be empty or whitespace only"
  else if !(v.data.all validPlayerChar) then
    .error "Player name contains invalid characters. Allowed: letters, numbers, spaces, -, _, ., @"
  else
    .ok v

/-- `ScoreCreate.validate_metadata`: serialized size at most
`settings.max_metadata_size = 10240`, every key matching `^[\w\-_]+$`. -/
def validate_metadata (v : Option Metadata) : Except String (Option Metadata) :=
  match v with
  | none => .ok none
  | some md =>
    if md.serialized.length > 10240 then
      .error "Metadata too large. Maximum size is 10240 bytes"
    else if md.keys.any (fun k => k.data.isEmpty || !(k.data.all validMetaKeyChar)) then
      .error "Invalid metadata key. Only alphanumeric, -, _ allowed"
    else
      .ok (some md)

/-- Full validation of a `ScoreCreate` body: pydantic `Field` constraints
(`min_length = 1`, `max_length = settings.max_player_name_length = 50` on
the raw name; `ge = 0`, `le = settings.max_score_value = 999999999` on the
score) followed by the two field validators. -/
def validateScoreCreate (inp : ScoreCreateInput) :
    Except String ScoreCreateData :=
  if inp.player_name.length < 1 then
    .error "String should have at least 1 character"
  else if inp.player_name.length > 50 then
    .error "String should have at most 50 characters"
  else if inp.score < 0 then
    .error "Input should be greater than or equal to 0"
  else if inp.score > 999999999 then
    .error "Input should be less than or equal to 999999999"
  else
    match validate_player_name inp.player_name with
    | .error m => .error m
    | .ok name =>
      match validate_metadata inp.game_metadata with
      | .error m => .error m
      | .ok md => .ok ⟨name, inp.score, md⟩

/-! ## `app/routes.py` — date filter -/

/-- Microseconds per day; `timedelta(days = 1)`. -/
def microsPerDay : Int := 86400000000

/-- `routes.get_date_filter`: resolve the `period` query parameter to an
optional timestamp lower bound.  `now.replace(hour=0, minute=0, second=0,
microsecond=0)` is the enclosing UTC midnight, i.e. `now` with its
time-of-day part removed. -/
def get_date_filter (period : Option String) (now : Int) : Option Int :=
  match period with
  | none => none
  | some p =>
    if p == "today" then some (now - now % microsPerDay)
    else if p == "week" then some (now - 7 * microsPerDay)
    else if p == "month" then some (now - 30 * microsPerDay)
    else if p == "year" then some (now - 365 * microsPerDay)
    else none

/-! ## `app/routes.py` — leaderboard -/

/-- SQL `MAX` over a column of a non-empty result set (`0` is never
reached on the lists the queries build, which are non-empty). -/
def listMax : List Int → Int
  | [] => 0
  | [x] => x
  | x :: y :: xs => max x (listMax (y :: xs))

/-- SQL `MIN`, same convention as `listMax`. -/
def listMin : List Int → Int
  | [] => 0
  | [x] => x
  | x :: y :: xs => min x (listMin (y :: xs))

/-- One row of the grouped leaderboard query: `player_name`,
`max(score) as best_score`, `max(created_at) as latest_date`. -/
structure LbRow where
  player_name : String
  best_score : Int
  latest_date : Int
deriving Repr, DecidableEq

/-- The `WHERE` clause of both leaderboard queries: events of the
authenticated game, and — when a date filter is present — with
`created_at >= date_filter`. -/
def eventsInScope (events : List ScoreEvent) (gid : Nat)
    (dateFilter : Option Int) : List ScoreEvent :=
  events.filter fun e =>
    e.game_id == gid &&
      (match dateFilter with
       | none => true
       | some d => decide (d ≤ e.created_at))

/-- The grouped rows before ordering: one row per distinct
`player_name` of the in-scope events, carrying that player's maximum
score and most recent timestamp (SQL `GROUP BY player_name` with
`MAX(score)`, `MAX(created_at)`; group order is not specified by SQL, the
embedding fixes one). -/
def leaderboardRows (events : List ScoreEvent) (gid : Nat)
    (dateFilter : Option Int) : List LbRow :=
  let inScope := eventsInScope events gid dateFilter
  ((inScope.map (·.player_name)).dedup).map fun p =>
    let pev := inScope.filter (·.player_name == p)
    ⟨p, listMax (pev.map (·.score)), listMax (pev.map (·.created_at))⟩

/-- `ORDER BY best_score DESC` as a relation on rows. -/
def rowGE (a b : LbRow) : Prop := b.best_score ≤ a.best_score

instance : DecidableRel rowGE := fun a b => by
  unfold rowGE; infer_instance

instance : IsTotal LbRow rowGE := ⟨fun a b => le_total b.best_score a.best_score⟩

instance : IsTrans LbRow rowGE := ⟨fun _ _ _ h h' => le_trans h' h⟩

/-- `ORDER BY best_score DESC`: sort the grouped rows by best score
descending (ties in an unspecified order; the embedding uses a stable
sort, one of the permitted behaviours). -/
def sortRowsDesc (rows : List LbRow) : List LbRow :=
  rows.insertionSort rowGE

/-- Response entry (`schemas.LeaderboardEntry`). -/
structure LeaderboardEntry where
  rank : Nat
  player_name : String
  score : Int
  created_at : Int
deriving Repr, DecidableEq

/-- `enumerate(results)` with `rank = idx + 1`: attach ranks
`k+1, k+2, …` to the rows in order. -/
def addRanks (k : Nat) : List LbRow → List LeaderboardEntry
  | [] => []
  | r :: rs => ⟨k + 1, r.player_name, r.best_score, r.latest_date⟩ :: addRanks (k + 1) rs

/-- Response of `GET /leaderboard` (`schemas.LeaderboardResponse`),
restricted to the fields the claims speak about. -/
structure LeaderboardResponse where
  game_id : Nat
  entries : List LeaderboardEntry
  total_entries : Nat
deriving Repr, DecidableEq

/-- The `COUNT(DISTINCT player_name)` query of `get_leaderboard`: number
of distinct players of the game with at least one event passing the date
filter.  Not limited by `limit`. -/
def countDistinctPlayers (events : List ScoreEvent) (gid : Nat)
    (dateFilter : Option Int) : Nat :=
  ((eventsInScope events gid dateFilter).map (·.player_name)).dedup.length

/-- Body of `routes.get_leaderboard` after authentication: build the
grouped query, apply the date filter, order by best score descending,
`LIMIT limit`, rank the rows `1..`, and separately count distinct
players. -/
def leaderboardForGame (events : List ScoreEvent) (gid : Nat) (limit : Nat)
    (dateFilter : Option Int) : LeaderboardResponse :=
  let results := (sortRowsDesc (leaderboardRows events gid dateFilter)).take limit
  { game_id := gid
    entries := addRanks 0 results
    total_entries := countDistinctPlayers events gid dateFilter }

/-- Error taxonomy of the routes, as HTTP statuses with detail text. -/
inductive ApiError where
  | validationError (msg : String)
  | unauthorized
  | notFound (msg : String)
deriving Repr, DecidableEq

/-- `GET /leaderboard` (`routes.get_leaderboard`): resolve the API key
(401 on failure, before any query), resolve the period to a date filter,
then compute the leaderboard for the resolved game. -/
def get_leaderboard (hashFn : String → String) (games : List Game)
    (events : List ScoreEvent) (api_key : String) (limit : Nat)
    (period : Option String) (now : Int) :
    Except ApiError LeaderboardResponse :=
  match get_game_by_api_key hashFn games api_key with
  | none => .error .unauthorized
  | some game =>
    .ok (leaderboardForGame events game.id limit (get_date_filter period now))

/-! ## `app/routes.py` — player statistics -/

/-- `round(x, 2)` over `ℚ`: round to two decimal places. -/
def roundTo2 (q : ℚ) : ℚ := (round (100 * q) : ℤ) / 100

/-- Response of `GET /players/{player_name}/stats`
(`schemas.PlayerStats`), restricted to the fields the claims speak
about. -/
structure PlayerStats where
  player_name : String
  game_id : Nat
  total_scores : Nat
  best_score : Int
  average_score : ℚ
  worst_score : Int
  rank : Nat
  first_played : Int
  last_played : Int
deriving Repr, DecidableEq

/-- The query for one player's events in `routes.get_player_stats`:
`WHERE game_id = :gid AND player_name = :player_name` (exact,
case-sensitive string equality on the stored name). -/
def playerEventsOf (events : List ScoreEvent) (gid : Nat)
    (player_name : String) : List ScoreEvent :=
  events.filter fun e => e.game_id == gid && e.player_name == player_name

/-- Body of `routes.get_player_stats` after authentication: collect the
player's events for the game (exact string match on `player_name`); 404
when there are none; otherwise aggregate and compute the rank as one plus
the `COUNT(DISTINCT player_name)` over events of the game by other
players with score strictly above this player's best. -/
def playerStatsForGame (events : List ScoreEvent) (gid : Nat)
    (player_name : String) : Except ApiError PlayerStats :=
  let player_scores := playerEventsOf events gid player_name
  match player_scores with
  | [] => .error (.notFound ("Player '" ++ player_name ++ "' not found"))
  | _ :: _ =>
    let scores := player_scores.map (·.score)
    let best_score := listMax scores
    let worst_score := listMin scores
    let average_score : ℚ := (scores.sum : ℚ) / (scores.length : ℚ)
    let better_players :=
      ((events.filter fun e =>
          e.game_id == gid && e.player_name != player_name &&
            decide (best_score < e.score)).map (·.player_name)).dedup.length
    let dates := player_scores.map (·.created_at)
    .ok { player_name := player_name
          game_id := gid
          total_scores := player_scores.length
          best_score := best_score
          average_score := roundTo2 average_score
          worst_score := worst_score
          rank := better_players + 1
          first_played := listMin dates
          last_played := listMax dates }

/-- `GET /players/{player_name}/stats` (`routes.get_player_stats`):
resolve the API key (401 on failure, before any query), then compute the
stats for the resolved game. -/
def get_player_stats (hashFn : String → String) (games : List Game)
    (events : List ScoreEvent) (api_key : String) (player_name : String) :
    Except ApiError PlayerStats :=
  match get_game_by_api_key hashFn games api_key with
  | none => .error .unauthorized
  | some game => playerStatsForGame events game.id player_name

/-! ## `app/routes.py` — score submission -/

/-- `POST /scores` (`routes.submit_score` together with the pydantic
parsing of the body): the body is validated first (FastAPI parses and
validates `ScoreCreate` before the handler runs); then the API key is
resolved (401 on failure); on success a single event for the
authenticated game with the validated (stripped) player name is appended
to the ledger.  Returns the response and the new ledger; every failure
leaves the ledger unchanged. -/
def submit_score (hashFn : String → String) (games : List Game)
    (events : List ScoreEvent) (api_key : String) (inp : ScoreCreateInput)
    (now : Int) : Except ApiError ScoreEvent × List ScoreEvent :=
  match validateScoreCreate inp with
  | .error m => (.error (.validationError m), events)
  | .ok data =>
    match get_game_by_api_key hashFn games api_key with
    | none => (.error .unauthorized, events)
    | some game =>
      let e : ScoreEvent :=
        { game_id := game.id
          player_name := data.player_name
          score := data.score
          created_at := now }
      (.ok e, events ++ [e])

/-! ## `app/routes.py` — game creation error path -/

/-- Response of `POST /games` (`schemas.GameResponse`). -/
structure GameResponse where
  id : Nat
  name : String
  description : Option String
  api_key : String
  created_at : Int
deriving Repr, DecidableEq

/-- `routes.create_game`: hash a fresh key and insert the game; the
`except` branch rolls back and answers HTTP 500 with
`detail = f"Failed to create game: \x7bstr(e)\x7d"`.  The fallible
insert is modelled by its outcome `insert : Except String Game` (the
`String` is `str(e)` of the raised exception). -/
def create_game_response (insert : Except String Game) (raw_key : String) :
    Except (Nat × String) GameResponse :=
  match insert with
  | .ok g =>
    .ok { id := g.id, name := g.name, description := g.description
          api_key := raw_key, created_at := g.created_at }
  | .error e => .error (500, "Failed to create game: " ++ e)

/-! ## Helper lemmas -/

theorem listMax_mem : ∀ {l : List Int}, l ≠ [] → listMax l ∈ l
  | [], h => absurd rfl h
  | [_], _ => by simp [listMax]
  | x :: y :: xs, _ => by
    simp only [listMax]
    rcases max_cases x (listMax (y :: xs)) with ⟨h1, _⟩ | ⟨h1, _⟩
    · rw [h1]; exact List.mem_cons_self _ _
    · rw [h1]; exact List.mem_cons_of_mem _ (listMax_mem (by simp))

theorem le_listMax : ∀ {l : List Int} {x : Int}, x ∈ l → x ≤ listMax l
  | [], x, hx => absurd hx (List.not_mem_nil x)
  | [_], x, hx => by
    rcases List.mem_singleton.mp hx with rfl
    simp [listMax]
  | y :: z :: xs, x, hx => by
    simp only [listMax]
    rcases List.mem_cons.mp hx with rfl | h
    · exact le_max_left _ _
    · exact le_trans (le_listMax h) (le_max_right _ _)

theorem listMin_mem : ∀ {l : List Int}, l ≠ [] → listMin l ∈ l
  | [], h => absurd rfl h
  | [_], _ => by simp [listMin]
  | x :: y :: xs, _ => by
    simp only [listMin]
    rcases min_cases x (listMin (y :: xs)) with ⟨h1, _⟩ | ⟨h1, _⟩
    · rw [h1]; exact List.mem_cons_self _ _
    · rw [h1]; exact List.mem_cons_of_mem _ (listMin_mem (by simp))

theorem listMin_le : ∀ {l : List Int} {x : Int}, x ∈ l → listMin l ≤ x
  | [], x, hx => absurd hx (List.not_mem_nil x)
  | [_], x, hx => by
    rcases List.mem_singleton.mp hx with rfl
    simp [listMin]
  | y :: z :: xs, x, hx => by
    simp only [listMin]
    rcases List.mem_cons.mp hx with rfl | h
    · exact min_le_left _ _
    · exact le_trans (min_le_right _ _) (listMin_le h)

theorem mem_dropWhile_of_mem {α : Type} (p : α → Bool) :
    ∀ {l : List α} {c : α}, c ∈ l → p c = false → c ∈ l.dropWhile p
  | a :: l, c, hc, hpc => by
    rw [List.dropWhile_cons]
    by_cases h : p a = true
    · simp only [h, if_true]
      rcases List.mem_cons.mp hc with rfl | h'
      · rw [hpc] at h; cases h
      · exact mem_dropWhile_of_mem p h' hpc
    · simp only [h, if_false]
      exact hc

/-- A non-whitespace character of `s` survives `pyStrip`. -/
theorem mem_pyStrip_of_mem {s : String} {c : Char} (hc : c ∈ s.data)
    (hw : ¬ c.isWhitespace) : c ∈ (pyStrip s).data := by
  show c ∈ ((s.data.dropWhile Char.isWhitespace).reverse.dropWhile
      Char.isWhitespace).reverse
  rw [List.mem_reverse]
  refine mem_dropWhile_of_mem _ ?_ (by simpa using hw)
  rw [List.mem_reverse]
  exact mem_dropWhile_of_mem _ hc (by simpa using hw)

theorem addRanks_length : ∀ (k : Nat) (l : List LbRow),
    (addRanks k l).length = l.length
  | _, [] => rfl
  | k, _ :: rs => by simp [addRanks, addRanks_length (k + 1) rs]

theorem addRanks_get : ∀ (k : Nat) (l : List LbRow) (i : Nat) (h : i < l.length),
    (addRanks k l).get ⟨i, by rw [addRanks_length]; exact h⟩ =
      ⟨k + i + 1, (l.get ⟨i, h⟩).player_name, (l.get ⟨i, h⟩).best_score,
        (l.get ⟨i, h⟩).latest_date⟩
  | _, _ :: _, 0, _ => rfl
  | k, _ :: rs, i + 1, h => by
    have ih := addRanks_get (k + 1) rs i (Nat.lt_of_succ_lt_succ h)
    simp only [addRanks, List.get] at ih ⊢
    rw [ih]
    have : k + 1 + i = k + (i + 1) := by omega
    rw [this]

theorem mem_addRanks : ∀ {k : Nat} {l : List LbRow} {e : LeaderboardEntry},
    e ∈ addRanks k l →
      ∃ r ∈ l, e.player_name = r.player_name ∧ e.score = r.best_score ∧
        e.created_at = r.latest_date
  | k, r :: rs, e, he => by
    rcases List.mem_cons.mp he with rfl | h
    · exact ⟨r, List.mem_cons_self _ _, rfl, rfl, rfl⟩
    · rcases mem_addRanks h with ⟨r', hr', h1, h2, h3⟩
      exact ⟨r', List.mem_cons_of_mem _ hr', h1, h2, h3⟩

theorem addRanks_map_player : ∀ (k : Nat) (l : List LbRow),
    (addRanks k l).map (·.player_name) = l.map (·.player_name)
  | _, [] => rfl
  | k, _ :: rs => by simp [addRanks, addRanks_map_player (k + 1) rs]

theorem leaderboardRows_map_player (es : List ScoreEvent) (gid : Nat)
    (df : Option Int) :
    (leaderboardRows es gid df).map (·.player_name) =
      ((eventsInScope es gid df).map (·.player_name)).dedup := by
  simp only [leaderboardRows, List.map_map]
  exact List.map_id'' (fun _ => rfl) _

theorem mem_leaderboardRows {es : List ScoreEvent} {gid : Nat}
    {df : Option Int} {r : LbRow} (hr : r ∈ leaderboardRows es gid df) :
    r.player_name ∈ (eventsInScope es gid df).map (·.player_name) ∧
    r.best_score = listMax
      (((eventsInScope es gid df).filter (·.player_name == r.player_name)).map
        (·.score)) ∧
    r.latest_date = listMax
      (((eventsInScope es gid df).filter (·.player_name == r.player_name)).map
        (·.created_at)) := by
  rcases List.mem_map.mp hr with ⟨p, hp, rfl⟩
  exact ⟨List.mem_dedup.mp hp, rfl, rfl⟩

/-- The per-player event list behind a row of the grouped query is
non-empty. -/
theorem player_filter_ne_nil {es : List ScoreEvent} {p : String}
    (hp : p ∈ es.map (·.player_name)) :
    es.filter (·.player_name == p) ≠ [] := by
  rcases List.mem_map.mp hp with ⟨e, he, rfl⟩
  have : e ∈ es.filter (·.player_name == e.player_name) :=
    List.mem_filter.mpr ⟨he, by simp⟩
  exact List.ne_nil_of_mem this

theorem sortRowsDesc_perm (l : List LbRow) : (sortRowsDesc l).Perm l :=
  List.perm_insertionSort rowGE l

theorem sortRowsDesc_sorted (l : List LbRow) :
    List.Sorted rowGE (sortRowsDesc l) :=
  List.sorted_insertionSort rowGE l

theorem addRanks_get_rank (k : Nat) (l : List LbRow) (i : Nat)
    (h : i < (addRanks k l).length) :
    ((addRanks k l).get ⟨i, h⟩).rank = k + i + 1 := by
  have h' : i < l.length := by rw [addRanks_length] at h; exact h
  exact congrArg LeaderboardEntry.rank (addRanks_get k l i h')

theorem addRanks_get_score (k : Nat) (l : List LbRow) (i : Nat)
    (h : i < (addRanks k l).length) (h' : i < l.length) :
    ((addRanks k l).get ⟨i, h⟩).score = (l.get ⟨i, h'⟩).best_score :=
  congrArg LeaderboardEntry.score (addRanks_get k l i h')

/-! ## Claim theorems -/

/-- C1. For every tenant and optional time window, the leaderboard
operation returns one entry per distinct player having at least one
qualifying event (stated of the grouped-and-ordered rows, of which the
entry list is the `limit`-prefix), where each entry carries that player's
maximum score among in-scope events and the most recent event timestamp
among that player's in-scope events; entries are sorted by best score
descending, assigned consecutive ranks `1..N` with no gaps or shared
ranks, and the entry list is truncated to at most `limit` entries. -/
theorem C1_leaderboard_correct (events : List ScoreEvent) (gid : Nat)
    (limit : Nat) (df : Option Int) :
    let inScope := eventsInScope events gid df
    let rows := sortRowsDesc (leaderboardRows events gid df)
    let resp := leaderboardForGame events gid limit df
    ((∀ p : String,
        p ∈ rows.map (·.player_name) ↔ ∃ e ∈ inScope, e.player_name = p) ∧
      (rows.map (·.player_name)).Nodup) ∧
    (∀ r ∈ rows,
      (r.best_score ∈
          (inScope.filter (·.player_name == r.player_name)).map (·.score) ∧
        ∀ s ∈ (inScope.filter (·.player_name == r.player_name)).map (·.score),
          s ≤ r.best_score) ∧
      (r.latest_date ∈
          (inScope.filter (·.player_name == r.player_name)).map (·.created_at) ∧
        ∀ d ∈ (inScope.filter (·.player_name == r.player_name)).map
            (·.created_at),
          d ≤ r.latest_date)) ∧
    (resp.entries.length = min limit rows.length ∧
      resp.entries.length ≤ limit) ∧
    (∀ e ∈ resp.entries, ∃ r ∈ rows, e.player_name = r.player_name ∧
      e.score = r.best_score ∧ e.created_at = r.latest_date) ∧
    (resp.entries.map (·.player_name)).Nodup ∧
    (∀ (i : Nat) (h : i < resp.entries.length),
      (resp.entries.get ⟨i, h⟩).rank = i + 1) ∧
    (∀ (i j : Nat) (hi : i < resp.entries.length)
        (hj : j < resp.entries.length), i ≤ j →
      (resp.entries.get ⟨j, hj⟩).score ≤ (resp.entries.get ⟨i, hi⟩).score) := by
  intro inScope rows resp
  have hperm : rows.Perm (leaderboardRows events gid df) := sortRowsDesc_perm _
  have hmapperm : (rows.map (·.player_name)).Perm
      ((leaderboardRows events gid df).map (·.player_name)) := hperm.map _
  have hmapeq := leaderboardRows_map_player events gid df
  have hlen : resp.entries.length = (rows.take limit).length :=
    addRanks_length 0 (rows.take limit)
  have hsorted : List.Sorted rowGE rows := sortRowsDesc_sorted _
  have hsorted' : List.Sorted rowGE (rows.take limit) :=
    List.Pairwise.sublist (List.take_sublist limit rows) hsorted
  refine ⟨⟨?_, ?_⟩, ?_, ⟨?_, ?_⟩, ?_, ?_, ?_, ?_⟩
  · intro p
    rw [hmapperm.mem_iff, hmapeq, List.mem_dedup, List.mem_map]
  · rw [hmapperm.nodup_iff, hmapeq]
    exact List.nodup_dedup _
  · intro r hr
    have hr' : r ∈ leaderboardRows events gid df := hperm.mem_iff.mp hr
    obtain ⟨hp, hb, hl⟩ := mem_leaderboardRows hr'
    have hne : inScope.filter (·.player_name == r.player_name) ≠ [] :=
      player_filter_ne_nil hp
    have hnes : (inScope.filter (·.player_name == r.player_name)).map
        (·.score) ≠ [] := fun h => hne (List.map_eq_nil_iff.mp h)
    have hned : (inScope.filter (·.player_name == r.player_name)).map
        (·.created_at) ≠ [] := fun h => hne (List.map_eq_nil_iff.mp h)
    refine ⟨⟨?_, ?_⟩, ?_, ?_⟩
    · rw [hb]; exact listMax_mem hnes
    · intro s hs; rw [hb]; exact le_listMax hs
    · rw [hl]; exact listMax_mem hned
    · intro d hd; rw [hl]; exact le_listMax hd
  · rw [hlen, List.length_take]
  · rw [hlen, List.length_take]
    exact min_le_left _ _
  · intro e he
    obtain ⟨r, hr, h1, h2, h3⟩ := mem_addRanks he
    exact ⟨r, List.take_subset limit rows hr, h1, h2, h3⟩
  · have : resp.entries.map (·.player_name) =
        (rows.map (·.player_name)).take limit := by
      rw [show resp.entries.map (·.player_name) =
          (rows.take limit).map (·.player_name) from
        addRanks_map_player 0 (rows.take limit), List.map_take]
    rw [this]
    refine List.Nodup.sublist (List.take_sublist _ _) ?_
    rw [hmapperm.nodup_iff, hmapeq]
    exact List.nodup_dedup _
  · intro i h
    have := addRanks_get_rank 0 (rows.take limit) i h
    simpa using this
  · intro i j hi hj hij
    have hi' : i < (rows.take limit).length := by rw [← hlen]; exact hi
    have hj' : j < (rows.take limit).length := by rw [← hlen]; exact hj
    show ((addRanks 0 (rows.take limit)).get ⟨j, hj⟩).score ≤
      ((addRanks 0 (rows.take limit)).get ⟨i, hi⟩).score
    rw [addRanks_get_score 0 (rows.take limit) i hi hi',
      addRanks_get_score 0 (rows.take limit) j hj hj']
    rcases Nat.lt_or_ge i j with hlt | hge
    · have := List.pairwise_iff_getElem.mp hsorted' i j hi' hj' hlt
      simpa [rowGE, List.get_eq_getElem] using this
    · have : i = j := le_antisymm hij hge
      subst this
      exact le_refl _

/-- Fixed ledger used by witnesses: the worked scenario of the
specification (`(Alice,1000), (Bob,1500), (Charlie,900), (Alice,1200)`
for tenant 1). -/
def exampleEvents : List ScoreEvent :=
  [⟨1, "Alice", 1000, 10⟩, ⟨1, "Bob", 1500, 20⟩,
   ⟨1, "Charlie", 900, 30⟩, ⟨1, "Alice", 1200, 40⟩]

/-- Witness for C1 on the specification's worked scenario. -/
theorem C1_leaderboard_correct_witness :
    ((leaderboardForGame exampleEvents 1 10 none).entries.get
        ⟨0, by decide⟩).rank = 1 ∧
    ((leaderboardForGame exampleEvents 1 10 none).entries.get
        ⟨1, by decide⟩).score ≤
      ((leaderboardForGame exampleEvents 1 10 none).entries.get
        ⟨0, by decide⟩).score := by
  obtain ⟨-, -, -, -, -, hrank, hsort⟩ :=
    C1_leaderboard_correct exampleEvents 1 10 none
  exact ⟨hrank 0 (by decide), hsort 0 1 (by decide) (by decide) (by decide)⟩

/-- Evaluation of `playerStatsForGame` when the player has no events:
the route raises 404 NotFound. -/
theorem playerStatsForGame_nil (events : List ScoreEvent) (gid : Nat)
    (p : String) (h : playerEventsOf events gid p = []) :
    playerStatsForGame events gid p =
      .error (.notFound ("Player '" ++ p ++ "' not found")) := by
  unfold playerStatsForGame
  rw [h]

/-- Evaluation of `playerStatsForGame` when the player has events: the
aggregate record, spelled out. -/
theorem playerStatsForGame_cons (events : List ScoreEvent) (gid : Nat)
    (p : String) (a : ScoreEvent) (l : List ScoreEvent)
    (h : playerEventsOf events gid p = a :: l) :
    playerStatsForGame events gid p = .ok
      { player_name := p
        game_id := gid
        total_scores := (a :: l).length
        best_score := listMax ((a :: l).map (·.score))
        average_score := roundTo2
          (((((a :: l).map (·.score)).sum : ℤ) : ℚ) /
            (((a :: l).map (·.score)).length : ℚ))
        worst_score := listMin ((a :: l).map (·.score))
        rank := ((events.filter fun e =>
            e.game_id == gid && e.player_name != p &&
              decide (listMax ((a :: l).map (·.score)) < e.score)).map
            (·.player_name)).dedup.length + 1
        first_played := listMin ((a :: l).map (·.created_at))
        last_played := listMax ((a :: l).map (·.created_at)) } := by
  unfold playerStatsForGame
  rw [h]

/-- C2. For every tenant, window, and limit in `[1,100]`, the
`total_entries` value returned by the leaderboard operation equals the
number of distinct player names with at least one event qualifying under
the tenant and window filters, and is unaffected by the value of `limit`
(the window filter, when present, still applies to this count). -/
theorem C2_total_entries (events : List ScoreEvent) (gid : Nat)
    (limit : Nat) (df : Option Int) (_h1 : 1 ≤ limit) (_h2 : limit ≤ 100) :
    (leaderboardForGame events gid limit df).total_entries =
      ((eventsInScope events gid df).map (·.player_name)).toFinset.card ∧
    (∀ p : String,
      p ∈ ((eventsInScope events gid df).map (·.player_name)).toFinset ↔
        ∃ e ∈ events, e.player_name = p ∧ e.game_id = gid ∧
          match df with
          | none => True
          | some d => d ≤ e.created_at) ∧
    (∀ limit' : Nat, 1 ≤ limit' → limit' ≤ 100 →
      (leaderboardForGame events gid limit' df).total_entries =
        (leaderboardForGame events gid limit df).total_entries) := by
  refine ⟨?_, ?_, fun _ _ _ => rfl⟩
  · show countDistinctPlayers events gid df = _
    rw [List.card_toFinset]
    rfl
  · intro p
    rw [List.mem_toFinset, List.mem_map]
    constructor
    · rintro ⟨e, he, rfl⟩
      obtain ⟨he', hcond⟩ := List.mem_filter.mp he
      refine ⟨e, he', rfl, ?_⟩
      cases df with
      | none => simpa using hcond
      | some d =>
        simp only [Bool.and_eq_true, beq_iff_eq, decide_eq_true_eq] at hcond
        exact ⟨hcond.1, hcond.2⟩
    · rintro ⟨e, he, rfl, hg, hc⟩
      refine ⟨e, List.mem_filter.mpr ⟨he, ?_⟩, rfl⟩
      cases df with
      | none => simp [hg]
      | some d => simp only [Bool.and_eq_true, beq_iff_eq, decide_eq_true_eq]
                  exact ⟨hg, hc⟩

/-- Witness for C2 on the specification's worked scenario. -/
theorem C2_total_entries_witness :
    1 ≤ 10 ∧ 10 ≤ 100 ∧
    (leaderboardForGame exampleEvents 1 10 none).total_entries =
      ((eventsInScope exampleEvents 1 none).map (·.player_name)).toFinset.card ∧
    (leaderboardForGame exampleEvents 1 3 none).total_entries =
      (leaderboardForGame exampleEvents 1 10 none).total_entries := by
  obtain ⟨ha, -, hc⟩ :=
    C2_total_entries exampleEvents 1 10 none (by decide) (by decide)
  exact ⟨by decide, by decide, ha, hc 3 (by decide) (by decide)⟩

/-- C3. For every tenant and player name, the stats operation signals
NotFound exactly when the player has zero events for that tenant;
otherwise it returns `total_scores` equal to the number of the player's
events, `best_score` / `worst_score` the maximum / minimum of their
scores, `average_score` the mean rounded to two decimals, and
`first_played` / `last_played` the earliest / latest event timestamp. -/
theorem C3_player_stats (events : List ScoreEvent) (gid : Nat) (p : String) :
    ((∃ msg, playerStatsForGame events gid p = .error (.notFound msg)) ↔
      playerEventsOf events gid p = []) ∧
    (playerEventsOf events gid p ≠ [] →
      ∃ s, playerStatsForGame events gid p = .ok s) ∧
    (∀ s, playerStatsForGame events gid p = .ok s →
      s.total_scores = (playerEventsOf events gid p).length ∧
      (s.best_score ∈ (playerEventsOf events gid p).map (·.score) ∧
        ∀ x ∈ (playerEventsOf events gid p).map (·.score),
          x ≤ s.best_score) ∧
      (s.worst_score ∈ (playerEventsOf events gid p).map (·.score) ∧
        ∀ x ∈ (playerEventsOf events gid p).map (·.score),
          s.worst_score ≤ x) ∧
      s.average_score = roundTo2
        (((((playerEventsOf events gid p).map (·.score)).sum : ℤ) : ℚ) /
          (((playerEventsOf events gid p).map (·.score)).length : ℚ)) ∧
      (s.first_played ∈ (playerEventsOf events gid p).map (·.created_at) ∧
        ∀ d ∈ (playerEventsOf events gid p).map (·.created_at),
          s.first_played ≤ d) ∧
      (s.last_played ∈ (playerEventsOf events gid p).map (·.created_at) ∧
        ∀ d ∈ (playerEventsOf events gid p).map (·.created_at),
          d ≤ s.last_played)) := by
  rcases hpes : playerEventsOf events gid p with _ | ⟨a, l⟩
  · have hres := playerStatsForGame_nil events gid p hpes
    rw [hres]
    exact ⟨⟨fun _ => rfl, fun _ => ⟨_, rfl⟩⟩, fun h => absurd rfl h,
      fun s hs => nomatch hs⟩
  · have hres := playerStatsForGame_cons events gid p a l hpes
    rw [hres]
    refine ⟨⟨?_, ?_⟩, fun _ => ⟨_, rfl⟩, ?_⟩
    · rintro ⟨msg, hmsg⟩
      exact nomatch hmsg
    · intro h
      exact nomatch h
    · intro s hs
      injection hs with hs'
      subst hs'
      refine ⟨rfl, ⟨?_, ?_⟩, ⟨?_, ?_⟩, rfl, ⟨?_, ?_⟩, ⟨?_, ?_⟩⟩
      · exact listMax_mem (by simp)
      · intro x hx
        exact le_listMax hx
      · exact listMin_mem (by simp)
      · intro x hx
        exact listMin_le hx
      · exact listMin_mem (by simp)
      · intro d hd
        exact listMin_le hd
      · exact listMax_mem (by simp)
      · intro d hd
        exact le_listMax hd

/-- Witness for C3: on the worked scenario, a player without events is
NotFound, and Alice's best score is one of her event scores. -/
theorem C3_player_stats_witness :
    (∃ msg, playerStatsForGame exampleEvents 1 "Dave" =
      .error (.notFound msg)) ∧
    (∃ s, playerStatsForGame exampleEvents 1 "Alice" = .ok s ∧
      s.total_scores = 2 ∧
      s.best_score ∈ (playerEventsOf exampleEvents 1 "Alice").map (·.score)) := by
  obtain ⟨h1, -, -⟩ := C3_player_stats exampleEvents 1 "Dave"
  obtain ⟨-, h2, h3⟩ := C3_player_stats exampleEvents 1 "Alice"
  refine ⟨h1.mpr (by rfl), ?_⟩
  obtain ⟨s, hs⟩ := h2 (by decide)
  exact ⟨s, hs, (h3 s hs).1, (h3 s hs).2.1.1⟩

/-- When every event of player `p` scores at most `b`, restricting the
strictly-greater-than-`b` count to *other* players changes nothing: an
event above `b` cannot belong to `p`. -/
theorem rank_filter_eq (events : List ScoreEvent) (gid : Nat) (p : String)
    (b : Int) (hb : ∀ e ∈ playerEventsOf events gid p, e.score ≤ b) :
    events.filter (fun e =>
        e.game_id == gid && e.player_name != p && decide (b < e.score)) =
      events.filter (fun e => e.game_id == gid && decide (b < e.score)) := by
  apply List.filter_congr
  intro e he
  by_cases hg : e.game_id = gid
  · by_cases hsc : b < e.score
    · have hne : e.player_name ≠ p := by
        intro hp
        have hmem : e ∈ playerEventsOf events gid p :=
          List.mem_filter.mpr ⟨he, by simp [hg, hp]⟩
        exact absurd hsc (not_lt.mpr (hb e hmem))
      rw [show (e.player_name != p) = true from bne_iff_ne.mpr hne]
      simp
    · rw [show decide (b < e.score) = false from decide_eq_false hsc]
      simp
  · rw [show (e.game_id == gid) = false from beq_eq_false_iff_ne.mpr hg]
    simp

/-- Inversion of a successful stats computation: the returned best score
bounds every event of the player, and the returned rank is the
literal other-player strictly-greater distinct count plus one. -/
theorem playerStats_rank_eq {events : List ScoreEvent} {gid : Nat}
    {p : String} {s : PlayerStats}
    (hs : playerStatsForGame events gid p = .ok s) :
    (∀ e ∈ playerEventsOf events gid p, e.score ≤ s.best_score) ∧
    s.rank = ((events.filter fun e =>
        e.game_id == gid && e.player_name != p &&
          decide (s.best_score < e.score)).map
        (·.player_name)).dedup.length + 1 := by
  rcases hpes : playerEventsOf events gid p with _ | ⟨a, l⟩
  · rw [playerStatsForGame_nil events gid p hpes] at hs
    exact nomatch hs
  · rw [playerStatsForGame_cons events gid p a l hpes] at hs
    injection hs with hs'
    subst hs'
    constructor
    · intro e he
      exact le_listMax (List.mem_map_of_mem _ he)
    · rfl

/-- The rank formula with the redundant `player_name != p` condition
dropped: one plus the distinct count of players of the game with an
event strictly above the returned best score. -/
theorem playerStats_rank_canonical {events : List ScoreEvent} {gid : Nat}
    {p : String} {s : PlayerStats}
    (hs : playerStatsForGame events gid p = .ok s) :
    s.rank = ((events.filter fun e =>
        e.game_id == gid && decide (s.best_score < e.score)).map
        (·.player_name)).dedup.length + 1 := by
  obtain ⟨hb, hr⟩ := playerStats_rank_eq hs
  rw [hr, rank_filter_eq events gid p _ hb]

/-- C4. For every tenant and every player with at least one event, the
rank reported by the stats operation equals one plus the number of
distinct other players in the same tenant who have at least one event
whose score is strictly greater than this player's best score;
consequently two players with equal best scores receive the same numeric
rank value. -/
theorem C4_stats_rank (events : List ScoreEvent) (gid : Nat) :
    (∀ p s, playerStatsForGame events gid p = .ok s →
      s.rank = 1 + ((events.filter fun e =>
          e.game_id == gid && e.player_name != p &&
            decide (s.best_score < e.score)).map
          (·.player_name)).toFinset.card) ∧
    (∀ p q s t, playerStatsForGame events gid p = .ok s →
      playerStatsForGame events gid q = .ok t →
      s.best_score = t.best_score → s.rank = t.rank) := by
  constructor
  · intro p s hs
    obtain ⟨-, hr⟩ := playerStats_rank_eq hs
    rw [hr, List.card_toFinset]
    omega
  · intro p q s t hs ht hbest
    rw [playerStats_rank_canonical hs, playerStats_rank_canonical ht, hbest]

/-- Witness for C4 on the worked scenario: Alice (best 1200) has rank 2,
Bob alone scoring above 1200; adding a second 1200-best player would tie
at the same numeric rank (instantiated via two equal-best players in a
two-player ledger). -/
theorem C4_stats_rank_witness :
    (∃ s, playerStatsForGame exampleEvents 1 "Alice" = .ok s ∧
      s.rank = 1 + ((exampleEvents.filter fun e =>
          e.game_id == 1 && e.player_name != "Alice" &&
            decide (s.best_score < e.score)).map
          (·.player_name)).toFinset.card ∧ s.rank = 2) ∧
    (∃ s t, playerStatsForGame
        [⟨1, "A", 700, 0⟩, ⟨1, "B", 700, 1⟩] 1 "A" = .ok s ∧
      playerStatsForGame [⟨1, "A", 700, 0⟩, ⟨1, "B", 700, 1⟩] 1 "B" = .ok t ∧
      s.rank = t.rank) := by
  obtain ⟨h1, h2⟩ := C4_stats_rank exampleEvents 1
  obtain ⟨-, h2'⟩ := C4_stats_rank [⟨1, "A", 700, 0⟩, ⟨1, "B", 700, 1⟩] 1
  constructor
  · obtain ⟨-, hex, h3⟩ := C3_player_stats exampleEvents 1 "Alice"
    obtain ⟨s, hs⟩ := hex (by decide)
    have hc3 := h3 s hs
    have hmem : s.best_score ∈ [(1000 : Int), 1200] := hc3.2.1.1
    have hub : (1200 : Int) ≤ s.best_score := hc3.2.1.2 1200 (by decide)
    have hbest : s.best_score = 1200 := by
      rcases List.mem_cons.mp hmem with h | h
      · omega
      · simpa using h
    refine ⟨s, hs, h1 "Alice" s hs, ?_⟩
    rw [h1 "Alice" s hs, hbest]
    decide
  · obtain ⟨-, hex1, -⟩ :=
      C3_player_stats [⟨1, "A", 700, 0⟩, ⟨1, "B", 700, 1⟩] 1 "A"
    obtain ⟨-, hex2, -⟩ :=
      C3_player_stats [⟨1, "A", 700, 0⟩, ⟨1, "B", 700, 1⟩] 1 "B"
    obtain ⟨-, -, h3a⟩ :=
      C3_player_stats [⟨1, "A", 700, 0⟩, ⟨1, "B", 700, 1⟩] 1 "A"
    obtain ⟨-, -, h3b⟩ :=
      C3_player_stats [⟨1, "A", 700, 0⟩, ⟨1, "B", 700, 1⟩] 1 "B"
    obtain ⟨s, hs⟩ := hex1 (by decide)
    obtain ⟨t, ht⟩ := hex2 (by decide)
    refine ⟨s, t, hs, ht, h2' "A" "B" s t hs ht ?_⟩
    have hsb : s.best_score ∈ [(700 : Int)] := (h3a s hs).2.1.1
    have htb : t.best_score ∈ [(700 : Int)] := (h3b t ht).2.1.1
    rw [List.mem_singleton.mp hsb, List.mem_singleton.mp htb]

/-- A scan over games whose prefix contains no matching hash resolves to
the first matching record. -/
theorem get_game_first_match (hashFn : String → String) (rawKey : String) :
    ∀ (pre : List Game) (g : Game) (post : List Game),
      (∀ g' ∈ pre, g'.api_key_hash ≠ hashFn rawKey) →
      g.api_key_hash = hashFn rawKey →
      get_game_by_api_key hashFn (pre ++ g :: post) rawKey = some g
  | [], g, post, _, hg => by
    unfold get_game_by_api_key verify_api_key
    simp only [List.nil_append, List.find?_cons]
    rw [show (hashFn rawKey == g.api_key_hash) = true from beq_iff_eq.mpr hg.symm]
  | p :: pre, g, post, hpre, hg => by
    unfold get_game_by_api_key verify_api_key
    simp only [List.cons_append, List.find?_cons]
    rw [show (hashFn rawKey == p.api_key_hash) = false from
      beq_eq_false_iff_ne.mpr fun h =>
        hpre p (List.mem_cons_self _ _) h.symm]
    exact get_game_first_match hashFn rawKey pre g post
      (fun g' h => hpre g' (List.mem_cons_of_mem _ h)) hg

/-- C5. For every tenant whose stored credential hash was produced by
hashing a raw key with the key-derivation function, presenting that raw
key to `get_game_by_api_key` recomputes the same hash and returns that
tenant (given the schema's uniqueness of stored hashes); the resolver
scans the tenant records linearly and returns the first match, and
returns none (translated to 401 Unauthorized) when no stored hash
matches. -/
theorem C5_api_key_roundtrip (hashFn : String → String) (games : List Game)
    (rawKey : String) :
    (∀ g ∈ games, (games.map (·.api_key_hash)).Nodup →
      g.api_key_hash = hashFn rawKey →
      get_game_by_api_key hashFn games rawKey = some g) ∧
    ((∀ g ∈ games, g.api_key_hash ≠ hashFn rawKey) →
      get_game_by_api_key hashFn games rawKey = none) ∧
    (∀ (pre : List Game) (g : Game) (post : List Game),
      games = pre ++ g :: post →
      (∀ g' ∈ pre, g'.api_key_hash ≠ hashFn rawKey) →
      g.api_key_hash = hashFn rawKey →
      get_game_by_api_key hashFn games rawKey = some g) := by
  refine ⟨?_, ?_, ?_⟩
  · intro g hmem hnodup hg
    obtain ⟨pre, post, rfl⟩ := List.append_of_mem hmem
    refine get_game_first_match hashFn rawKey pre g post ?_ hg
    intro g' hg' heq
    rw [List.map_append, List.map_cons] at hnodup
    obtain ⟨-, -, hdisj⟩ := List.nodup_append.mp hnodup
    exact hdisj (List.mem_map_of_mem _ hg')
      (by rw [heq, ← hg]; exact List.mem_cons_self _ _)
  · intro hnone
    unfold get_game_by_api_key verify_api_key
    rw [List.find?_eq_none]
    intro g hg
    rw [Bool.not_eq_true, beq_eq_false_iff_ne]
    exact fun h => hnone g hg h.symm
  · rintro pre g post rfl hpre hg
    exact get_game_first_match hashFn rawKey pre g post hpre hg

/-- Concrete stand-in for the PBKDF2 derivation in witnesses. -/
def witnessHashFn (s : String) : String := s ++ "#"

/-- Concrete tenant table used by witnesses: one registered game whose
stored hash is the derivation of the raw key `"key"`. -/
def witnessGames : List Game :=
  [⟨1, "g", none, "key#", 0⟩, ⟨2, "h", none, "other#", 0⟩]

/-- Witness for C5: the issued key round-trips to its game, and an
unrelated string resolves to no game. -/
theorem C5_api_key_roundtrip_witness :
    get_game_by_api_key witnessHashFn witnessGames "key" =
      some ⟨1, "g", none, "key#", 0⟩ ∧
    get_game_by_api_key witnessHashFn witnessGames "wrong" = none := by
  obtain ⟨h1, h2, -⟩ := C5_api_key_roundtrip witnessHashFn witnessGames "key"
  obtain ⟨-, h2', -⟩ := C5_api_key_roundtrip witnessHashFn witnessGames "wrong"
  constructor
  · exact h1 ⟨1, "g", none, "key#", 0⟩ (by decide) (by decide) (by decide)
  · refine h2' ?_
    intro g hg
    fin_cases hg <;> decide

/-- Inversion of a successful player-name validation: the output is the
stripped input, which is non-empty and drawn from the allowed character
class. -/
theorem validate_player_name_ok {v out : String}
    (h : validate_player_name v = .ok out) :
    out = pyStrip v ∧ (pyStrip v).data ≠ [] ∧
      ∀ c ∈ (pyStrip v).data, validPlayerChar c = true := by
  unfold validate_player_name at h
  dsimp only at h
  split_ifs at h with h1 h2
  injection h with h'
  refine ⟨h'.symm, ?_, ?_⟩
  · intro hnil
    exact h1 (by rw [hnil]; rfl)
  · intro c hc
    have hall : (pyStrip v).data.all validPlayerChar = true := by
      cases hb : (pyStrip v).data.all validPlayerChar with
      | false => exact absurd (by rw [hb]; rfl) h2
      | true => rfl
    exact List.all_eq_true.mp hall c hc

/-- Inversion of a successful metadata validation: the value passes
through unchanged; when present its serialized form is within the size
bound and every key is non-empty and drawn from the key character
class. -/
theorem validate_metadata_ok {v out : Option Metadata}
    (h : validate_metadata v = .ok out) :
    out = v ∧ ∀ md, v = some md → md.serialized.length ≤ 10240 ∧
      ∀ k ∈ md.keys, k.data ≠ [] ∧ ∀ c ∈ k.data, validMetaKeyChar c = true := by
  match v, h with
  | none, h =>
    injection h with h'
    exact ⟨h'.symm, fun md hmd => nomatch hmd⟩
  | some md, h =>
    unfold validate_metadata at h
    dsimp only at h
    split_ifs at h with h1 h2
    injection h with h'
    refine ⟨h'.symm, ?_⟩
    rintro md' hmd'
    obtain rfl := Option.some.inj hmd'
    refine ⟨by omega, ?_⟩
    intro k hk
    have hnotany : ∀ k' ∈ md.keys,
        ¬(k'.data.isEmpty || !(k'.data.all validMetaKeyChar)) = true := by
      intro k' hk'
      intro hbad
      exact h2 (List.any_eq_true.mpr ⟨k', hk', hbad⟩)
    have hk' := hnotany k hk
    rw [Bool.or_eq_true, not_or] at hk'
    obtain ⟨hke, hkc⟩ := hk'
    constructor
    · intro hnil
      exact hke (by rw [hnil]; rfl)
    · intro c hc
      have hall : k.data.all validMetaKeyChar = true := by
        cases hb : k.data.all validMetaKeyChar with
        | false => exact absurd (by rw [hb]; rfl) hkc
        | true => rfl
      exact List.all_eq_true.mp hall c hc

/-- Inversion of a successful full `ScoreCreate` validation: every field
constraint and validator condition holds, and the validated data is the
input with the player name stripped. -/
theorem validateScoreCreate_ok {inp : ScoreCreateInput} {d : ScoreCreateData}
    (h : validateScoreCreate inp = .ok d) :
    (pyStrip inp.player_name).data ≠ [] ∧
    (∀ c ∈ (pyStrip inp.player_name).data, validPlayerChar c = true) ∧
    1 ≤ inp.player_name.length ∧ inp.player_name.length ≤ 50 ∧
    0 ≤ inp.score ∧ inp.score ≤ 999999999 ∧
    (∀ md, inp.game_metadata = some md → md.serialized.length ≤ 10240 ∧
      ∀ k ∈ md.keys, k.data ≠ [] ∧ ∀ c ∈ k.data, validMetaKeyChar c = true) ∧
    d.player_name = pyStrip inp.player_name ∧ d.score = inp.score ∧
    d.game_metadata = inp.game_metadata := by
  unfold validateScoreCreate at h
  split_ifs at h with h1 h2 h3 h4
  rcases hn : validate_player_name inp.player_name with msg | name
  · rw [hn] at h
    exact Except.noConfusion h
  · rw [hn] at h
    rcases hm : validate_metadata inp.game_metadata with msg | md
    · rw [hm] at h
      exact Except.noConfusion h
    · rw [hm] at h
      injection h with h'
      subst h'
      obtain ⟨hname, hne, hchars⟩ := validate_player_name_ok hn
      obtain ⟨hmd, hmdprops⟩ := validate_metadata_ok hm
      exact ⟨hne, hchars, by omega, by omega, by omega, by omega, hmdprops,
        hname.symm ▸ rfl, rfl, hmd.symm ▸ rfl⟩

/-- C6. For every score submission in which any input is invalid —
player name empty after trimming, player name containing characters
outside the allowed class, player name longer than 50 characters, score
outside `[0, 999999999]`, metadata serializing to more than 10240 bytes,
or a metadata key outside its allowed class — the whole operation fails
with a validation error before any persistence occurs, and the ledger is
unchanged. -/
theorem C6_validation_fail_fast (hashFn : String → String)
    (games : List Game) (events : List ScoreEvent) (api_key : String)
    (inp : ScoreCreateInput) (now : Int)
    (hbad : (pyStrip inp.player_name).data = [] ∨
      (∃ c ∈ inp.player_name.data, validPlayerChar c = false) ∨
      inp.player_name.length > 50 ∨ inp.score < 0 ∨ inp.score > 999999999 ∨
      (∃ md, inp.game_metadata = some md ∧ md.serialized.length > 10240) ∨
      (∃ md k, inp.game_metadata = some md ∧ k ∈ md.keys ∧
        (k.data = [] ∨ ∃ c ∈ k.data, validMetaKeyChar c = false))) :
    ∃ msg, submit_score hashFn games events api_key inp now =
      (.error (.validationError msg), events) := by
  rcases hval : validateScoreCreate inp with msg | d
  · exact ⟨msg, by unfold submit_score; rw [hval]⟩
  · exfalso
    obtain ⟨h1, h2, -, h4, h5, h6, h7, -, -, -⟩ := validateScoreCreate_ok hval
    rcases hbad with h | ⟨c, hc, hcbad⟩ | h | h | h | ⟨md, hmd, hsz⟩ |
      ⟨md, k, hmd, hk, hbadk⟩
    · exact h1 h
    · have hw : ¬ c.isWhitespace := by
        intro hw
        have : validPlayerChar c = true := by
          simp [validPlayerChar, hw]
        rw [hcbad] at this
        exact nomatch this
      have := h2 c (mem_pyStrip_of_mem hc hw)
      rw [hcbad] at this
      exact nomatch this
    · omega
    · omega
    · omega
    · have := (h7 md hmd).1
      omega
    · obtain ⟨hknil, hkchars⟩ := (h7 md hmd).2 k hk
      rcases hbadk with h | ⟨c, hc, hcbad⟩
      · exact hknil h
      · have := hkchars c hc
        rw [hcbad] at this
        exact nomatch this

/-- Witness for C6: a player name with a forbidden character is rejected
and leaves the ledger unchanged. -/
theorem C6_validation_fail_fast_witness :
    ∃ msg, submit_score witnessHashFn witnessGames exampleEvents "key"
      ⟨"<script>", 10, none⟩ 0 =
        (.error (.validationError msg), exampleEvents) := by
  refine C6_validation_fail_fast witnessHashFn witnessGames exampleEvents
    "key" ⟨"<script>", 10, none⟩ 0 ?_
  exact Or.inr (Or.inl ⟨'<', by decide, by decide⟩)

/-- C7. For every leaderboard request, the period parameter resolves to
a timestamp lower bound as follows: `"today"` filters to events at or
after the current UTC midnight, `"week"` to now minus 7 days, `"month"`
to now minus a fixed 30 days, `"year"` to now minus a fixed 365 days,
and an absent or unrecognized period yields no filter (all the tenant's
events qualify). -/
theorem C7_date_filter (now : Int) :
    (get_date_filter (some "today") now = some (now - now % microsPerDay) ∧
      (now - now % microsPerDay) % microsPerDay = 0 ∧
      now - now % microsPerDay ≤ now ∧
      now < (now - now % microsPerDay) + microsPerDay) ∧
    get_date_filter (some "week") now = some (now - 7 * microsPerDay) ∧
    get_date_filter (some "month") now = some (now - 30 * microsPerDay) ∧
    get_date_filter (some "year") now = some (now - 365 * microsPerDay) ∧
    (get_date_filter none now = none ∧
      ∀ p : String, p ≠ "today" → p ≠ "week" → p ≠ "month" → p ≠ "year" →
        get_date_filter (some p) now = none) ∧
    (∀ (es : List ScoreEvent) (gid : Nat) (e : ScoreEvent),
      (e ∈ eventsInScope es gid none ↔ e ∈ es ∧ e.game_id = gid) ∧
      ∀ d : Int, e ∈ eventsInScope es gid (some d) ↔
        e ∈ es ∧ e.game_id = gid ∧ d ≤ e.created_at) := by
  refine ⟨⟨rfl, ?_, ?_, ?_⟩, rfl, rfl, rfl, ⟨rfl, ?_⟩, ?_⟩
  · simp only [microsPerDay]
    omega
  · simp only [microsPerDay]
    omega
  · simp only [microsPerDay]
    omega
  · intro p h1 h2 h3 h4
    show (if p == "today" then some (now - now % microsPerDay)
      else if p == "week" then some (now - 7 * microsPerDay)
      else if p == "month" then some (now - 30 * microsPerDay)
      else if p == "year" then some (now - 365 * microsPerDay)
      else none) = none
    rw [show (p == "today") = false from beq_eq_false_iff_ne.mpr h1,
      show (p == "week") = false from beq_eq_false_iff_ne.mpr h2,
      show (p == "month") = false from beq_eq_false_iff_ne.mpr h3,
      show (p == "year") = false from beq_eq_false_iff_ne.mpr h4]
    rfl
  · intro es gid e
    constructor
    · unfold eventsInScope
      rw [List.mem_filter]
      simp
    · intro d
      unfold eventsInScope
      rw [List.mem_filter]
      simp [and_assoc]

/-- Witness for C7 at a concrete clock value. -/
theorem C7_date_filter_witness :
    get_date_filter (some "today") 1000000000000000 =
      some (1000000000000000 - 1000000000000000 % microsPerDay) ∧
    get_date_filter (some "nonsense") 1000000000000000 = none := by
  obtain ⟨⟨h1, -, -, -⟩, -, -, -, ⟨-, h5⟩, -⟩ :=
    C7_date_filter 1000000000000000
  exact ⟨h1, h5 "nonsense" (by decide) (by decide) (by decide) (by decide)⟩

/-- C8 counterexample: on an internal failure while creating a game, the
response body is not an opaque generic message — it embeds the
underlying exception's text (`detail = "Failed to create game: " +
str(e)`), shown here at a concrete exception whose text appears verbatim
in the response. -/
theorem C8_counterexample :
    create_game_response (.error "secret internal detail") "k" =
      .error (500, "Failed to create game: secret internal detail") ∧
    "Failed to create game: secret internal detail" ≠
      "Failed to create game: " := by
  exact ⟨rfl, by decide⟩

/-- C8 (amended). On an internal failure, `create_game` responds with
HTTP 500 whose detail is the fixed prefix `"Failed to create game: "`
concatenated with the underlying exception's message — the exception
detail is therefore included in the response body (only the traceback
stays server-side); on success the response carries the game fields and
the raw key. -/
theorem C8_internal_error_detail (e : String) (rawKey : String) (g : Game) :
    create_game_response (.error e) rawKey =
      .error (500, "Failed to create game: " ++ e) ∧
    create_game_response (.ok g) rawKey =
      .ok ⟨g.id, g.name, g.description, rawKey, g.created_at⟩ :=
  ⟨rfl, rfl⟩

/-- The scoped-events query factors through the tenant filter: only
events with the resolved game's id can influence it. -/
theorem eventsInScope_factor (es : List ScoreEvent) (gid : Nat)
    (df : Option Int) :
    eventsInScope es gid df =
      (es.filter (fun e => e.game_id == gid)).filter
        (fun e => match df with
          | none => true
          | some d => decide (d ≤ e.created_at)) := by
  unfold eventsInScope
  rw [List.filter_filter]
  apply List.filter_congr
  intro e _
  cases df <;> exact Bool.and_comm _ _

/-- The per-player query factors through the tenant filter. -/
theorem playerEventsOf_factor (es : List ScoreEvent) (gid : Nat)
    (p : String) :
    playerEventsOf es gid p =
      (es.filter (fun e => e.game_id == gid)).filter
        (fun e => e.player_name == p) := by
  unfold playerEventsOf
  rw [List.filter_filter]
  apply List.filter_congr
  intro e _
  exact Bool.and_comm _ _

/-- The rank query of the stats operation factors through the tenant
filter. -/
theorem rankFilter_factor (es : List ScoreEvent) (gid : Nat) (p : String)
    (b : Int) :
    es.filter (fun e =>
        e.game_id == gid && e.player_name != p && decide (b < e.score)) =
      (es.filter (fun e => e.game_id == gid)).filter
        (fun e => e.player_name != p && decide (b < e.score)) := by
  rw [List.filter_filter]
  apply List.filter_congr
  intro e _
  cases e.game_id == gid <;> cases e.player_name != p <;>
    cases decide (b < e.score) <;> rfl

/-- The leaderboard computation depends only on the tenant's own
events. -/
theorem leaderboardForGame_congr {es₁ es₂ : List ScoreEvent} {gid : Nat}
    (h : es₁.filter (fun e => e.game_id == gid) =
      es₂.filter (fun e => e.game_id == gid))
    (limit : Nat) (df : Option Int) :
    leaderboardForGame es₁ gid limit df =
      leaderboardForGame es₂ gid limit df := by
  have hscope : eventsInScope es₁ gid df = eventsInScope es₂ gid df := by
    rw [eventsInScope_factor, eventsInScope_factor, h]
  unfold leaderboardForGame countDistinctPlayers leaderboardRows
  rw [hscope]

/-- The stats computation depends only on the tenant's own events. -/
theorem playerStatsForGame_congr {es₁ es₂ : List ScoreEvent} {gid : Nat}
    (h : es₁.filter (fun e => e.game_id == gid) =
      es₂.filter (fun e => e.game_id == gid))
    (p : String) :
    playerStatsForGame es₁ gid p = playerStatsForGame es₂ gid p := by
  have hpe : playerEventsOf es₁ gid p = playerEventsOf es₂ gid p := by
    rw [playerEventsOf_factor, playerEventsOf_factor, h]
  rcases hpes : playerEventsOf es₂ gid p with _ | ⟨a, l⟩
  · rw [playerStatsForGame_nil es₁ gid p (hpe.trans hpes),
      playerStatsForGame_nil es₂ gid p hpes]
  · have hrf : es₁.filter (fun e =>
        e.game_id == gid && e.player_name != p &&
          decide (listMax ((a :: l).map (·.score)) < e.score)) =
      es₂.filter (fun e =>
        e.game_id == gid && e.player_name != p &&
          decide (listMax ((a :: l).map (·.score)) < e.score)) := by
      rw [rankFilter_factor, rankFilter_factor, h]
    rw [playerStatsForGame_cons es₁ gid p a l (hpe.trans hpes),
      playerStatsForGame_cons es₂ gid p a l hpes, hrf]

/-- C9. Every score submission, leaderboard read, and stats read is
scoped to exactly the single tenant resolved from the presented API key:
an invalid credential yields Unauthorized before any query runs, and
for a resolved tenant the results are unchanged under any change to the
events of other tenants (two-run noninterference); submission appends a
single event owned by the resolved tenant, independently of the rest of
the ledger. -/
theorem C9_tenant_isolation (hashFn : String → String) (games : List Game)
    (api_key : String) :
    (get_game_by_api_key hashFn games api_key = none →
      (∀ (events : List ScoreEvent) (limit : Nat) (period : Option String)
          (now : Int),
        get_leaderboard hashFn games events api_key limit period now =
          .error .unauthorized) ∧
      (∀ (events : List ScoreEvent) (player : String),
        get_player_stats hashFn games events api_key player =
          .error .unauthorized) ∧
      (∀ (events : List ScoreEvent) (inp : ScoreCreateInput) (now : Int)
          (d : ScoreCreateData), validateScoreCreate inp = .ok d →
        submit_score hashFn games events api_key inp now =
          (.error .unauthorized, events))) ∧
    (∀ g, get_game_by_api_key hashFn games api_key = some g →
      (∀ (events₁ events₂ : List ScoreEvent) (limit : Nat)
          (period : Option String) (now : Int),
        events₁.filter (fun e => e.game_id == g.id) =
          events₂.filter (fun e => e.game_id == g.id) →
        get_leaderboard hashFn games events₁ api_key limit period now =
          get_leaderboard hashFn games events₂ api_key limit period now) ∧
      (∀ (events₁ events₂ : List ScoreEvent) (player : String),
        events₁.filter (fun e => e.game_id == g.id) =
          events₂.filter (fun e => e.game_id == g.id) →
        get_player_stats hashFn games events₁ api_key player =
          get_player_stats hashFn games events₂ api_key player) ∧
      (∀ (events : List ScoreEvent) (inp : ScoreCreateInput) (now : Int)
          (d : ScoreCreateData), validateScoreCreate inp = .ok d →
        submit_score hashFn games events api_key inp now =
          (.ok ⟨g.id, d.player_name, d.score, now⟩,
            events ++ [⟨g.id, d.player_name, d.score, now⟩]))) := by
  constructor
  · intro hnone
    refine ⟨?_, ?_, ?_⟩
    · intro events limit period now
      unfold get_leaderboard
      rw [hnone]
    · intro events player
      unfold get_player_stats
      rw [hnone]
    · intro events inp now d hval
      unfold submit_score
      rw [hval, hnone]
  · intro g hg
    refine ⟨?_, ?_, ?_⟩
    · intro es₁ es₂ limit period now h
      unfold get_leaderboard
      rw [hg]
      exact congrArg Except.ok (leaderboardForGame_congr h limit _)
    · intro es₁ es₂ player h
      unfold get_player_stats
      rw [hg]
      exact playerStatsForGame_congr h player
    · intro events inp now d hval
      unfold submit_score
      rw [hval, hg]

/-- Witness for C9: a wrong key is rejected before any query, and the
tenant-1 leaderboard ignores an added tenant-2 event. -/
theorem C9_tenant_isolation_witness :
    get_player_stats witnessHashFn witnessGames exampleEvents "wrong"
      "Alice" = .error .unauthorized ∧
    get_leaderboard witnessHashFn witnessGames
        (exampleEvents ++ [⟨2, "Zed", 9999, 50⟩]) "key" 10 none 0 =
      get_leaderboard witnessHashFn witnessGames exampleEvents "key" 10
        none 0 := by
  obtain ⟨hn, -⟩ := C9_tenant_isolation witnessHashFn witnessGames "wrong"
  obtain ⟨-, hsome⟩ := C9_tenant_isolation witnessHashFn witnessGames "key"
  constructor
  · exact (hn (by rfl)).2.1 exampleEvents "Alice"
  · exact (hsome ⟨1, "g", none, "key#", 0⟩ (by rfl)).1
      (exampleEvents ++ [⟨2, "Zed", 9999, 50⟩]) exampleEvents 10 none 0
      (by rfl)

/-- C10. Player names are trimmed of surrounding whitespace before being
stored by score submission, but the stats operation matches its
player-name argument by exact, untrimmed, case-sensitive string
equality; a stats request whose name differs from every stored name —
e.g. only by surrounding whitespace or letter case — signals NotFound
even when the trimmed form of that name has events. -/
theorem C10_trimmed_store_exact_lookup (hashFn : String → String)
    (games : List Game) :
    (∀ (inp : ScoreCreateInput) (d : ScoreCreateData),
      validateScoreCreate inp = .ok d →
      d.player_name = pyStrip inp.player_name) ∧
    (∀ (events : List ScoreEvent) (api_key : String)
        (inp : ScoreCreateInput) (now : Int) (g : Game)
        (d : ScoreCreateData),
      get_game_by_api_key hashFn games api_key = some g →
      validateScoreCreate inp = .ok d →
      (submit_score hashFn games events api_key inp now).2 =
        events ++ [⟨g.id, pyStrip inp.player_name, inp.score, now⟩]) ∧
    (∀ (events : List ScoreEvent) (gid : Nat) (q : String),
      (∀ e ∈ events, e.game_id = gid → e.player_name ≠ q) →
      ∃ msg, playerStatsForGame events gid q =
        .error (.notFound msg)) := by
  refine ⟨?_, ?_, ?_⟩
  · intro inp d h
    exact (validateScoreCreate_ok h).2.2.2.2.2.2.2.1
  · intro events api_key inp now g d hg hval
    obtain ⟨-, -, -, -, -, -, -, hname, hscore, -⟩ :=
      validateScoreCreate_ok hval
    unfold submit_score
    rw [hval, hg]
    show events ++ [⟨g.id, d.player_name, d.score, now⟩] = _
    rw [hname, hscore]
  · intro events gid q hq
    have hnil : playerEventsOf events gid q = [] := by
      apply List.filter_eq_nil_iff.mpr
      intro e he
      simp only [Bool.and_eq_true, beq_iff_eq, not_and]
      exact hq e he
    exact ⟨_, playerStatsForGame_nil events gid q hnil⟩

/-- Witness for C10: a submission of `" Alice "` validates to the
stored name `"Alice"`; a stats lookup for `" Alice "` (and for
`"alice"`) in a ledger having `"Alice"` events is NotFound. -/
theorem C10_trimmed_store_exact_lookup_witness :
    (∃ d, validateScoreCreate ⟨" Alice ", 5, none⟩ = .ok d ∧
      d.player_name = pyStrip " Alice ") ∧
    (∃ msg, playerStatsForGame [⟨1, "Alice", 5, 0⟩] 1 " Alice " =
      .error (.notFound msg)) ∧
    (∃ msg, playerStatsForGame [⟨1, "Alice", 5, 0⟩] 1 "alice" =
      .error (.notFound msg)) := by
  obtain ⟨h1, -, h3⟩ :=
    C10_trimmed_store_exact_lookup witnessHashFn witnessGames
  refine ⟨⟨⟨"Alice", 5, none⟩, by rfl, ?_⟩, ?_, ?_⟩
  · exact h1 ⟨" Alice ", 5, none⟩ ⟨"Alice", 5, none⟩ (by rfl)
  · exact h3 [⟨1, "Alice", 5, 0⟩] 1 " Alice " (by decide)
  · exact h3 [⟨1, "Alice", 5, 0⟩] 1 "alice" (by decide)

